import Mathlib

/-!
Verification of `ereserve_downloader.py` (THU e-reserve book downloader).

The Python source is shallowly embedded: JSON values become an inductive
type, the cookie bridge, the form-POST response handling, the scan-id
discovery loops and the chapter/page walking loop become pure Lean
functions over explicit inputs (cookie lists, HTTP responses, poll-tick
observation sequences, chapter-list JSON).  Wall-clock deadlines are
modelled by the sequence of poll ticks a run gets to observe, network
responses by explicit response values / response functions.
-/

namespace EReserve

/-- A JSON value as produced by `json.loads`; Python `None` and JSON `null`
coincide (`json.loads` maps `null` to `None`), so both are `Json.null`.
Numbers are modelled as integers (the APIs in question use ids and keys,
never fractional numbers). -/
inductive Json where
  | null
  | bool (b : Bool)
  | num (n : Int)
  | str (s : String)
  | arr (xs : List Json)
  | obj (kvs : List (String × Json))

/-- `d.get(k)` on a Python dict decoded from JSON: the first binding of `k`,
`None` (= `Json.null`) when absent. -/
def jget (kvs : List (String × Json)) (k : String) : Json :=
  match kvs.find? (fun kv => kv.1 == k) with
  | some kv => kv.2
  | none => Json.null

/-- Python truthiness of a decoded JSON value (`if not x`). -/
def truthy : Json → Bool
  | .null => false
  | .bool b => b
  | .num n => n != 0
  | .str s => s != ""
  | .arr xs => !xs.isEmpty
  | .obj kvs => !kvs.isEmpty

/-- Python `str(x)` for a decoded JSON value.  The scalar cases are exact;
the container cases (which the EMID / hfsKey fields never are in this API)
are abstracted to a tag. -/
def pyStr : Json → String
  | .null => "None"
  | .bool b => if b then "True" else "False"
  | .num n => toString n
  | .str s => s
  | .arr _ => "<list>"
  | .obj _ => "<dict>"

/-! ## Session bridge (`_get_cookie_value`, lines 70-85) -/

/-- One cookie as returned by `context.cookies(url)`. -/
structure Cookie where
  name : String
  value : String
deriving DecidableEq, Repr

/-- `str.lower()` (ASCII case folding suffices for cookie names). -/
def pyLower (s : String) : String := String.mk (s.data.map Char.toLower)

/-- `_get_cookie_value(context, url, cookie_name)`: first pass looks for an
exact name match with a truthy (non-empty) value, second pass for a
case-insensitive name match with a truthy value; `None` otherwise. -/
def getCookieValue (cookies : List Cookie) (cookieName : String) : Option String :=
  match cookies.find? (fun c => c.name == cookieName && c.value != "") with
  | some c => some c.value
  | none =>
    let lowered := pyLower cookieName
    match cookies.find? (fun c => pyLower c.name == lowered && c.value != "") with
    | some c => some c.value
    | none => none

/-- Spec-side description of `bridgeCookie` (spec §4.1): all exact-name
matches with non-empty value, then all case-insensitive matches with
non-empty value; the first cookie in that combined priority list wins. -/
def bridgeCookieSpec (cookies : List Cookie) (cookieName : String) : Option String :=
  let exact := cookies.filter (fun c => c.name == cookieName && c.value != "")
  let ci := cookies.filter (fun c => pyLower c.name == pyLower cookieName && c.value != "")
  (exact ++ ci).head?.map (fun c => c.value)

/-! ## API POST handling (`_post_form_json`, lines 88-122) -/

/-- An HTTP response as seen by `_post_form_json`: status code and body text. -/
structure HttpResponse where
  status : Int
  text : String

/-- Outcome of `_post_form_json`: the decoded JSON, or a `SystemExit`
message. -/
inductive ApiOutcome where
  | ok (j : Json)
  | fatal (msg : String)

def missingCookieMsg : String :=
  "ERROR: missing cookie BotuReadKernel in this browser context. Make sure you successfully opened the viewer page via the button click before calling the API."

/-- `'\n'` without a character literal. -/
def newlineChar : Char := Char.ofNat 10

/-- Python `str.strip()` on a character list. -/
def pyStrip (cs : List Char) : List Char :=
  ((cs.dropWhile Char.isWhitespace).reverse.dropWhile Char.isWhitespace).reverse

/-- `text[:500].strip().replace("\n", " ")` (line 115 / line 121). -/
def snippet (text : String) : String :=
  String.mk ((pyStrip (text.data.take 500)).map (fun c => if c = newlineChar then ' ' else c))

def DEFAULT_CHAPTERS_API : String :=
  "https://ereserves.lib.tsinghua.edu.cn/readkernel/KernelAPI/BookInfo/selectJgpBookChapters"

/-- `_post_form_json` with the network abstracted: `parse` is `json.loads`
(`none` = `JSONDecodeError`), `resp` is the response the POST would get.
The second component records whether `context.request.post` was actually
issued (the cookie check happens before the request). -/
def postFormJson (parse : String → Option Json) (cookies : List Cookie)
    (apiUrl : String) (resp : HttpResponse) : ApiOutcome × Bool :=
  match getCookieValue cookies "BotuReadKernel" with
  | none => (.fatal missingCookieMsg, false)
  | some _ =>
    if resp.status < 200 ∨ 300 ≤ resp.status then
      (.fatal ("ERROR: API HTTP " ++ toString resp.status ++ ". url=" ++ apiUrl
        ++ " Body: " ++ snippet resp.text), true)
    else
      match parse resp.text with
      | some j => (.ok j, true)
      | none => (.fatal ("ERROR: API did not return JSON. url=" ++ apiUrl
          ++ " Body: " ++ snippet resp.text), true)

/-- Outcome of the chapter-list fetch plus `data`-field check
(lines 247-256).  `pyError` models the uncaught `AttributeError` Python
would raise in `chapters.get("data")` when the body decodes to a non-dict. -/
inductive ChaptersOutcome where
  | ok (data : List Json)
  | fatal (msg : String)
  | pyError

def chaptersDataErrMsg : String := "ERROR: chapters JSON missing list field: data"

/-- The chapter-list fetch: `_post_form_json` followed by
`chapters.get("data")` and the `isinstance(data, list)` check. -/
def fetchChapters (parse : String → Option Json) (cookies : List Cookie)
    (resp : HttpResponse) : ChaptersOutcome × Bool :=
  match postFormJson parse cookies DEFAULT_CHAPTERS_API resp with
  | (.fatal m, issued) => (.fatal m, issued)
  | (.ok j, issued) =>
    match j with
    | .obj kvs =>
      match jget kvs "data" with
      | .arr xs => (.ok xs, issued)
      | _ => (.fatal chaptersDataErrMsg, issued)
    | _ => (.pyError, issued)

/-! ## Page geometry (line 41, lines 311-315) -/

/-- The Python constant `EXPORT_DPI = 144.0` (the float value is the
integer 144 exactly). -/
def EXPORT_DPI : ℚ := 144

/-- `px * 72.0 / EXPORT_DPI` (lines 313-314).  The Python computation is on
IEEE doubles, but for pixel counts below 2^46 the product `px * 72.0` is
exact and the correctly-rounded division by `144.0` lands on the exactly
representable `px / 2`, so the rational model agrees with the float code. -/
def pagePoints (px : Nat) : ℚ := px * 72 / EXPORT_DPI

/-! ## Chapter / page walking loop (`main`, lines 264-317)

The two network stages are abstracted by pure functions: `fetchDetail`
maps the `str(emid)` posted to the page-manifest API to the decoded JSON
response (the BOOKID form field is a run constant and is elided), and
`dims` maps a downloaded image's storage key to the pixel size PIL reads
back.  Downloads are assumed to succeed (a non-2xx download aborts the
whole run via `raise_for_status`; the walking claims are about completed
walks). -/

structure TocEntry where
  level : Nat
  title : String
  startPage : Nat
deriving DecidableEq, Repr

/-- One page placed in the output document. `sequence` is its 1-based
position in the document (`page_index + 1` at placement time). -/
structure AcquiredPage where
  chapterName : String
  hfsKey : String
  sequence : Nat
  widthPx : Nat
  heightPx : Nat
  widthPt : ℚ
  heightPt : ℚ
deriving DecidableEq, Repr

/-- The running state of `main`'s walking loop. -/
structure WalkState where
  toc : List TocEntry
  pageIndex : Nat
  pages : List AcquiredPage
  downloads : List String
  calls : List String
deriving DecidableEq, Repr

def initState : WalkState := ⟨[], 0, [], [], []⟩

/-- `item.get("EMID") or item.get("emid")` (line 267). -/
def emidValue (kvs : List (String × Json)) : Json :=
  if truthy (jget kvs "EMID") then jget kvs "EMID" else jget kvs "emid"

/-- A chapter-list entry that gets a page-manifest call: a dict whose
`EMID`/`emid` is truthy (lines 265-268 skip everything else). -/
def validChapter : Json → Bool
  | .obj kvs => truthy (emidValue kvs)
  | _ => false

/-- The `str(emid)` posted to the page-manifest API for a valid entry. -/
def chapterEmid : Json → String
  | .obj kvs => pyStr (emidValue kvs)
  | _ => ""

/-- `item.get("EFRAGMENTNAME") or str(emid)` (line 279). -/
def chapterTitleOf : Json → String
  | .obj kvs =>
    if truthy (jget kvs "EFRAGMENTNAME") then pyStr (jget kvs "EFRAGMENTNAME")
    else pyStr (emidValue kvs)
  | _ => ""

/-- Lines 284-287: `detail.get("data") if isinstance(detail, dict) else
None`, then `.get("JGPS")` under an `isinstance(dict)` guard, then the
`isinstance(jgps, list)` check; `none` means the chapter is skipped. -/
def manifestImgs (detail : Json) : Option (List Json) :=
  match (match detail with | .obj dk => jget dk "data" | _ => Json.null) with
  | .obj dd =>
    match jget dd "JGPS" with
    | .arr xs => some xs
    | _ => none
  | _ => none

/-- A manifest entry that is downloaded: a dict with truthy `hfsKey`
(lines 290-294 skip everything else). -/
def validImg : Json → Bool
  | .obj kvs => truthy (jget kvs "hfsKey")
  | _ => false

/-- The storage key of a valid manifest entry. -/
def imgKey : Json → String
  | .obj kvs => pyStr (jget kvs "hfsKey")
  | _ => ""

/-- The inner `for img in jgps` loop (lines 289-317): skip non-dict
entries and falsy `hfsKey`s, otherwise download the image, read its pixel
size, create a document page of `px * 72 / EXPORT_DPI` points and bump
`page_index`. -/
def processImgs (dims : String → Nat × Nat) (chName : String) :
    List Json → WalkState → WalkState
  | [], st => st
  | img :: rest, st =>
    if validImg img then
      let key := imgKey img
      let wh := dims key
      let st1 : WalkState :=
        { st with
          downloads := st.downloads ++ [key]
          pages := st.pages ++
            [⟨chName, key, st.pageIndex + 1, wh.1, wh.2, pagePoints wh.1, pagePoints wh.2⟩]
          pageIndex := st.pageIndex + 1 }
      processImgs dims chName rest st1
    else processImgs dims chName rest st

/-- The body of the `for item in data` loop (lines 264-317): skip
non-dict entries and falsy EMIDs; otherwise issue the page-manifest call,
append the TOC entry `[1, chapter_name, page_index + 1]`, and walk the
manifest list (or skip the chapter when it is missing or not a list). -/
def processChapter (fetchDetail : String → Json) (dims : String → Nat × Nat)
    (st : WalkState) (item : Json) : WalkState :=
  match item with
  | .obj kvs =>
    if truthy (emidValue kvs) then
      let emid := pyStr (emidValue kvs)
      let detail := fetchDetail emid
      let chName :=
        if truthy (jget kvs "EFRAGMENTNAME") then pyStr (jget kvs "EFRAGMENTNAME") else emid
      let st1 : WalkState :=
        { st with
          calls := st.calls ++ [emid]
          toc := st.toc ++ [⟨1, chName, st.pageIndex + 1⟩] }
      match manifestImgs detail with
      | some imgs => processImgs dims chName imgs st1
      | none => st1
    else st
  | _ => st

/-- The whole `for item in data` loop from a given state. -/
def walkFrom (fetchDetail : String → Json) (dims : String → Nat × Nat) :
    List Json → WalkState → WalkState
  | [], st => st
  | item :: rest, st => walkFrom fetchDetail dims rest (processChapter fetchDetail dims st item)

/-- The whole walking phase of `main`, from the empty document. -/
def walk (fetchDetail : String → Json) (dims : String → Nat × Nat)
    (data : List Json) : WalkState :=
  walkFrom fetchDetail dims data initState

/-! Derived counting / shape functions used to state the walking claims. -/

/-- Number of downloadable entries in one manifest list. -/
def countImgs (imgs : List Json) : Nat := (imgs.filter validImg).length

/-- The manifest list a valid chapter item yields (empty when the
response is malformed and the chapter is skipped). -/
def chapterImgList (fetchDetail : String → Json) (item : Json) : List Json :=
  match manifestImgs (fetchDetail (chapterEmid item)) with
  | some xs => xs
  | none => []

/-- Pages a chapter item contributes. -/
def chapterCount (fetchDetail : String → Json) (item : Json) : Nat :=
  if validChapter item then countImgs (chapterImgList fetchDetail item) else 0

/-- Total pages a chapter list contributes. -/
def totalCount (fetchDetail : String → Json) : List Json → Nat
  | [] => 0
  | item :: rest => chapterCount fetchDetail item + totalCount fetchDetail rest

/-- The table of contents the loop builds, starting at a page offset:
one level-1 entry per valid chapter, pointing one past the pages placed
before it, whether or not the chapter contributes pages. -/
def tocOf (fetchDetail : String → Json) (idx : Nat) : List Json → List TocEntry
  | [] => []
  | item :: rest =>
    if validChapter item then
      ⟨1, chapterTitleOf item, idx + 1⟩ ::
        tocOf fetchDetail (idx + chapterCount fetchDetail item) rest
    else tocOf fetchDetail idx rest

/-! ## Scan-id discovery (`_new_pages_since`, `_wait_for_scanid`,
`main` lines 213-245)

Browser pages are identified by their `id()`, modelled as `Nat`.  One
`Obs` is what the environment would answer during one poll tick (both
loops poll on the same 0.2 s interval against the same wall-clock
deadline, so the shared deadline is modelled as a single shared list of
ticks): the current `context.pages`, what `_extract_scanid_now` returns
per page (already stripped and non-blank, or `none`), and each page's
`.url`. -/

structure Obs where
  contextPages : List Nat
  extract : Nat → Option String
  url : Nat → String

/-- `_new_pages_since(context.pages, before)` (lines 158-160). -/
def newPagesSince (contextPages before : List Nat) : List Nat :=
  contextPages.filter (fun p => !before.contains p)

/-- `dict.fromkeys(...)` order-preserving dedup: keeps the first
occurrence of each element. -/
def dedupFirstAux {α : Type} [DecidableEq α] (seen : List α) : List α → List α
  | [] => []
  | x :: xs =>
    if x ∈ seen then dedupFirstAux seen xs else x :: dedupFirstAux (x :: seen) xs

def dedupFirst {α : Type} [DecidableEq α] (l : List α) : List α := dedupFirstAux [] l

/-- Result of the discovery phase: `found scanid url`, or the
`SystemExit` timeout message. -/
inductive DiscoveryResult where
  | found (scanid : String) (url : String)
  | timedOut (msg : String)
deriving DecidableEq, Repr

/-- `last_urls[id(p)] = p.url`: dict assignment on an insertion-ordered
association list. -/
def updateUrl (m : List (Nat × String)) (p : Nat) (u : String) : List (Nat × String) :=
  if m.any (fun q => q.1 == p) then m.map (fun q => if q.1 == p then (p, u) else q)
  else m ++ [(p, u)]

/-- Association-list lookup (for stating what `last_urls` holds). -/
def lookupUrl (m : List (Nat × String)) (p : Nat) : Option String :=
  match m.find? (fun q => q.1 == p) with
  | some q => some q.2
  | none => none

/-- Python `sorted` on strings: lexicographic by code point. -/
def charListLe : List Char → List Char → Bool
  | [], _ => true
  | _ :: _, [] => false
  | a :: as, b :: bs => if a < b then true else if b < a then false else charListLe as bs

def strLe (a b : String) : Bool := charListLe a.data b.data

def insertStr (a : String) : List String → List String
  | [] => [a]
  | b :: bs => if strLe a b then a :: b :: bs else b :: insertStr a bs

def sortStrings : List String → List String
  | [] => []
  | a :: as => insertStr a (sortStrings as)

/-- Line 181: `", ".join(sorted({u for u in last_urls.values() if u}))`
wrapped in the line-182 `SystemExit` message. -/
def timeoutMsg (m : List (Nat × String)) : String :=
  let urls := String.intercalate ", "
    (sortStrings (dedupFirst ((m.map (fun q => q.2)).filter (fun u => u != ""))))
  "ERROR: scanid not found within timeout. seen_urls=[" ++ urls ++ "]"

/-- The `for p in pages` body of one `_wait_for_scanid` tick
(lines 168-178): record `p.url` in `last_urls`, then try extraction;
the first page with a scan id short-circuits the pass. -/
def pollPages (ob : Obs) (m : List (Nat × String)) :
    List Nat → List (Nat × String) × Option (String × String)
  | [] => (m, none)
  | p :: rest =>
    let m1 := updateUrl m p (ob.url p)
    match ob.extract p with
    | some s => (m1, some (s, ob.url p))
    | none => pollPages ob m1 rest

/-- `_wait_for_scanid(pages, timeout_ms)` (lines 163-182), the deadline
modelled by the list of ticks the loop gets to run. -/
def waitForScanid (pages : List Nat) (m : List (Nat × String)) :
    List Obs → DiscoveryResult
  | [] => .timedOut (timeoutMsg m)
  | ob :: rest =>
    match pollPages ob m pages with
    | (_, some su) => .found su.1 su.2
    | (m1, none) => waitForScanid pages m1 rest

/-- The `last_urls` map left behind by a full (token-free) run of
`_wait_for_scanid`'s loop. -/
def finalUrls (pages : List Nat) (m : List (Nat × String)) : List Obs → List (Nat × String)
  | [] => m
  | ob :: rest => finalUrls pages (pollPages ob m pages).1 rest

/-- The new-tab watch loop of `main` (lines 216-241) followed by
`_wait_for_scanid` on the remaining deadline budget: per tick, if new
pages appeared the candidate list becomes
`dict.fromkeys([new_pages[-1], page] + new_pages)` and the rest of the
budget goes to `_wait_for_scanid`; otherwise extraction is tried on the
original page directly (line 231 records `str(page.url or "")`, which the
total `url` field already yields).  A fully elapsed deadline reaches
`_wait_for_scanid` with no remaining budget and times out with an empty
URL list. -/
def discover (origPage : Nat) (before : List Nat) : List Obs → DiscoveryResult
  | [] => waitForScanid [origPage] [] []
  | ob :: rest =>
    let newPages := newPagesSince ob.contextPages before
    match newPages.getLast? with
    | some last => waitForScanid (dedupFirst (last :: origPage :: newPages)) [] rest
    | none =>
      match ob.extract origPage with
      | some s => .found s (ob.url origPage)
      | none => discover origPage before rest

def DEFAULT_SCAN_TIMEOUT_MS : Nat := 90000

/-- `needle in hay` on strings (used to state what an error message does
or does not report). -/
def containsSub (needle hay : String) : Bool :=
  (List.range (hay.data.length + 1)).any (fun i => needle.data.isPrefixOf (hay.data.drop i))

/-- Concrete poll-tick observations used in the discovery claims: one
tick in which pages 1 and 2 are open and tokenless. `c8Obs0` triggers the
new-tab branch; `c8ObsA` / `c8ObsB` show page 2 under two successive
URLs. -/
def c8Obs0 : Obs := ⟨[1, 2], fun _ => none, fun _ => ""⟩

def c8ObsA : Obs := ⟨[1, 2], fun _ => none, fun p => if p = 2 then "urlA" else "u1"⟩

def c8ObsB : Obs := ⟨[1, 2], fun _ => none, fun p => if p = 2 then "urlB" else "u1"⟩

/-! ## Walking-loop lemmas -/

/-- The page-manifest calls a chapter list produces, in order. -/
def callsOf (data : List Json) : List String :=
  (data.filter validChapter).map chapterEmid

/-- A placed page whose point size was derived from its pixel size by the
fixed-DPI conversion. -/
def goodPt (p : AcquiredPage) : Prop :=
  p.widthPt = pagePoints p.widthPx ∧ p.heightPt = pagePoints p.heightPx

theorem processImgs_toc (dims : String → Nat × Nat) (ch : String) :
    ∀ (imgs : List Json) (st : WalkState), (processImgs dims ch imgs st).toc = st.toc
  | [], _ => rfl
  | img :: rest, st => by
    cases h : validImg img <;>
      simp only [processImgs, h, if_true, if_false, Bool.false_eq_true] <;>
      exact processImgs_toc dims ch rest _

theorem processImgs_calls (dims : String → Nat × Nat) (ch : String) :
    ∀ (imgs : List Json) (st : WalkState), (processImgs dims ch imgs st).calls = st.calls
  | [], _ => rfl
  | img :: rest, st => by
    cases h : validImg img <;>
      simp only [processImgs, h, if_true, if_false, Bool.false_eq_true] <;>
      exact processImgs_calls dims ch rest _

theorem processImgs_pageIndex (dims : String → Nat × Nat) (ch : String) :
    ∀ (imgs : List Json) (st : WalkState),
      (processImgs dims ch imgs st).pageIndex = st.pageIndex + countImgs imgs
  | [], _ => rfl
  | img :: rest, st => by
    cases h : validImg img
    · simp only [processImgs, h, Bool.false_eq_true, if_false]
      rw [processImgs_pageIndex dims ch rest]
      simp [countImgs, List.filter_cons, h]
    · simp only [processImgs, h, if_true]
      rw [processImgs_pageIndex dims ch rest]
      simp only [countImgs, List.filter_cons, h, if_true, List.length_cons]
      omega

theorem processImgs_seq (dims : String → Nat × Nat) (ch : String) :
    ∀ (imgs : List Json) (st : WalkState),
      (processImgs dims ch imgs st).pages.map (fun p => p.sequence) =
        st.pages.map (fun p => p.sequence) ++ List.range' (st.pageIndex + 1) (countImgs imgs)
  | [], st => by simp [processImgs, countImgs]
  | img :: rest, st => by
    cases h : validImg img
    · simp only [processImgs, h, Bool.false_eq_true, if_false]
      rw [processImgs_seq dims ch rest]
      simp [countImgs, List.filter_cons, h]
    · simp only [processImgs, h, if_true]
      rw [processImgs_seq dims ch rest]
      simp only [countImgs, List.filter_cons, h, if_true, List.length_cons,
        List.range'_succ, List.map_append, List.map_cons, List.map_nil]
      simp

theorem processImgs_pt (dims : String → Nat × Nat) (ch : String) :
    ∀ (imgs : List Json) (st : WalkState), (∀ p ∈ st.pages, goodPt p) →
      ∀ p ∈ (processImgs dims ch imgs st).pages, goodPt p
  | [], _, hst => hst
  | img :: rest, st, hst => by
    cases h : validImg img
    · simp only [processImgs, h, Bool.false_eq_true, if_false]
      exact processImgs_pt dims ch rest st hst
    · simp only [processImgs, h, if_true]
      refine processImgs_pt dims ch rest _ ?_
      intro p hp
      rcases List.mem_append.mp hp with hp | hp
      · exact hst p hp
      · rcases List.mem_singleton.mp hp with rfl
        exact ⟨rfl, rfl⟩

theorem processChapter_not_valid (f : String → Json) (dims : String → Nat × Nat)
    (st : WalkState) (item : Json) (h : validChapter item = false) :
    processChapter f dims st item = st := by
  cases item <;> simp_all [processChapter, validChapter]

theorem processChapter_valid (f : String → Json) (dims : String → Nat × Nat)
    (st : WalkState) (kvs : List (String × Json)) (h : truthy (emidValue kvs) = true) :
    (processChapter f dims st (Json.obj kvs)).toc =
      st.toc ++ [⟨1, chapterTitleOf (Json.obj kvs), st.pageIndex + 1⟩] ∧
    (processChapter f dims st (Json.obj kvs)).calls =
      st.calls ++ [chapterEmid (Json.obj kvs)] ∧
    (processChapter f dims st (Json.obj kvs)).pageIndex =
      st.pageIndex + chapterCount f (Json.obj kvs) ∧
    (processChapter f dims st (Json.obj kvs)).pages.map (fun p => p.sequence) =
      st.pages.map (fun p => p.sequence) ++
        List.range' (st.pageIndex + 1) (chapterCount f (Json.obj kvs)) ∧
    ((∀ p ∈ st.pages, goodPt p) →
      ∀ p ∈ (processChapter f dims st (Json.obj kvs)).pages, goodPt p) := by
  have hcc : chapterCount f (Json.obj kvs) =
      countImgs (chapterImgList f (Json.obj kvs)) := by
    simp [chapterCount, validChapter, h]
  cases hm : manifestImgs (f (pyStr (emidValue kvs))) with
  | some imgs =>
    have himgs : chapterImgList f (Json.obj kvs) = imgs := by
      simp [chapterImgList, chapterEmid, hm]
    simp only [processChapter, h, if_true, hm, hcc, himgs]
    refine ⟨?_, ?_, ?_, ?_, ?_⟩
    · rw [processImgs_toc]
      rfl
    · rw [processImgs_calls]
      rfl
    · rw [processImgs_pageIndex]
    · rw [processImgs_seq]
    · intro hst
      exact processImgs_pt _ _ _ _ hst
  | none =>
    have himgs : chapterImgList f (Json.obj kvs) = [] := by
      simp [chapterImgList, chapterEmid, hm]
    simp only [processChapter, h, if_true, hm, hcc, himgs]
    refine ⟨rfl, rfl, by simp [countImgs], by simp [countImgs], fun hst => hst⟩

theorem walkFrom_spec (f : String → Json) (dims : String → Nat × Nat) :
    ∀ (data : List Json) (st : WalkState),
      (walkFrom f dims data st).calls = st.calls ++ callsOf data ∧
      (walkFrom f dims data st).toc = st.toc ++ tocOf f st.pageIndex data ∧
      (walkFrom f dims data st).pageIndex = st.pageIndex + totalCount f data ∧
      (walkFrom f dims data st).pages.map (fun p => p.sequence) =
        st.pages.map (fun p => p.sequence) ++
          List.range' (st.pageIndex + 1) (totalCount f data) ∧
      ((∀ p ∈ st.pages, goodPt p) → ∀ p ∈ (walkFrom f dims data st).pages, goodPt p)
  | [], st => by simp [walkFrom, callsOf, tocOf, totalCount]
  | item :: rest, st => by
    cases hv : validChapter item
    · have hpc := processChapter_not_valid f dims st item hv
      have ih := walkFrom_spec f dims rest st
      have h0 : chapterCount f item = 0 := by simp [chapterCount, hv]
      simp only [walkFrom, hpc, callsOf, tocOf, totalCount, List.filter_cons, hv,
        Bool.false_eq_true, if_false, h0, Nat.zero_add]
      exact ih
    · obtain ⟨kvs, rfl⟩ : ∃ kvs, item = Json.obj kvs := by
        cases item <;> simp_all [validChapter]
      have h : truthy (emidValue kvs) = true := by simpa [validChapter] using hv
      obtain ⟨htoc, hcalls, hpi, hseq, hpt⟩ := processChapter_valid f dims st kvs h
      obtain ⟨ihcalls, ihtoc, ihpi, ihseq, ihpt⟩ :=
        walkFrom_spec f dims rest (processChapter f dims st (Json.obj kvs))
      refine ⟨?_, ?_, ?_, ?_, ?_⟩
      · rw [walkFrom, ihcalls, hcalls]
        simp [callsOf, List.filter_cons, hv]
      · rw [walkFrom, ihtoc, htoc, hpi]
        simp [tocOf, hv]
      · rw [walkFrom, ihpi, hpi, totalCount]
        omega
      · rw [walkFrom, ihseq, hseq, hpi, totalCount, List.append_assoc]
        congr 1
        have harr : st.pageIndex + chapterCount f (Json.obj kvs) + 1 =
            st.pageIndex + 1 + chapterCount f (Json.obj kvs) := by omega
        rw [harr, List.range'_append_1]
        congr 1
        omega
      · intro hst
        rw [walkFrom]
        exact ihpt (hpt hst)

theorem tocOf_length (f : String → Json) :
    ∀ (data : List Json) (idx : Nat),
      (tocOf f idx data).length = (data.filter validChapter).length
  | [], _ => rfl
  | item :: rest, idx => by
    cases hv : validChapter item <;>
      simp [tocOf, hv, List.filter_cons, tocOf_length f rest]

theorem tocOf_mem (f : String → Json) :
    ∀ (data : List Json) (idx : Nat) (e : TocEntry), e ∈ tocOf f idx data →
      e.level = 1 ∧ idx + 1 ≤ e.startPage ∧ e.startPage ≤ idx + totalCount f data + 1
  | [], _, _, h => by simp [tocOf] at h
  | item :: rest, idx, e, h => by
    cases hv : validChapter item
    · rw [tocOf, hv] at h
      simp only [Bool.false_eq_true, if_false] at h
      have := tocOf_mem f rest idx e h
      have h0 : chapterCount f item = 0 := by simp [chapterCount, hv]
      simp only [totalCount, h0, Nat.zero_add]
      exact this
    · rw [tocOf, hv] at h
      simp only [if_true] at h
      rcases List.mem_cons.mp h with rfl | h
      · exact ⟨rfl, Nat.le_refl _, by
          show idx + 1 ≤ idx + totalCount f (item :: rest) + 1
          omega⟩
      · have := tocOf_mem f rest (idx + chapterCount f item) e h
        simp only [totalCount]
        omega

/-! ## Discovery lemmas -/

theorem dedupFirstAux_mem {α : Type} [DecidableEq α] :
    ∀ (seen l : List α) (x : α), x ∈ dedupFirstAux seen l ↔ x ∈ l ∧ x ∉ seen
  | seen, [], x => by simp [dedupFirstAux]
  | seen, y :: ys, x => by
    by_cases hy : y ∈ seen
    · rw [dedupFirstAux, if_pos hy, dedupFirstAux_mem seen ys x]
      constructor
      · rintro ⟨hxys, hxs⟩
        exact ⟨List.mem_cons_of_mem y hxys, hxs⟩
      · rintro ⟨hxc, hxs⟩
        rcases List.mem_cons.mp hxc with rfl | hxys
        · exact absurd hy hxs
        · exact ⟨hxys, hxs⟩
    · rw [dedupFirstAux, if_neg hy]
      constructor
      · intro hmem
        rcases List.mem_cons.mp hmem with rfl | hmem2
        · exact ⟨List.mem_cons_self x ys, hy⟩
        · obtain ⟨hxys, hxs⟩ := (dedupFirstAux_mem (y :: seen) ys x).mp hmem2
          exact ⟨List.mem_cons_of_mem y hxys,
            fun hseen => hxs (List.mem_cons_of_mem y hseen)⟩
      · rintro ⟨hxc, hxs⟩
        rcases List.mem_cons.mp hxc with rfl | hxys
        · exact List.mem_cons_self x _
        · by_cases hxy : x = y
          · subst hxy
            exact List.mem_cons_self x _
          · refine List.mem_cons_of_mem y ((dedupFirstAux_mem (y :: seen) ys x).mpr ⟨hxys, ?_⟩)
            intro hmem
            rcases List.mem_cons.mp hmem with h1 | h2
            · exact hxy h1
            · exact hxs h2

theorem dedupFirstAux_nodup {α : Type} [DecidableEq α] :
    ∀ (seen l : List α), (dedupFirstAux seen l).Nodup
  | _, [] => List.nodup_nil
  | seen, y :: ys => by
    by_cases hy : y ∈ seen
    · rw [dedupFirstAux, if_pos hy]
      exact dedupFirstAux_nodup seen ys
    · rw [dedupFirstAux, if_neg hy]
      refine List.nodup_cons.mpr ⟨?_, dedupFirstAux_nodup (y :: seen) ys⟩
      intro hmem
      exact ((dedupFirstAux_mem (y :: seen) ys y).mp hmem).2 (List.mem_cons_self y seen)

theorem dedupFirstAux_sublist {α : Type} [DecidableEq α] :
    ∀ (seen l : List α), List.Sublist (dedupFirstAux seen l) l
  | _, [] => List.Sublist.refl []
  | seen, y :: ys => by
    by_cases hy : y ∈ seen
    · rw [dedupFirstAux, if_pos hy]
      exact (dedupFirstAux_sublist seen ys).cons y
    · rw [dedupFirstAux, if_neg hy]
      exact (dedupFirstAux_sublist (y :: seen) ys).cons₂ y

theorem dedupFirst_nodup {α : Type} [DecidableEq α] (l : List α) : (dedupFirst l).Nodup :=
  dedupFirstAux_nodup [] l

theorem dedupFirst_sublist {α : Type} [DecidableEq α] (l : List α) :
    List.Sublist (dedupFirst l) l :=
  dedupFirstAux_sublist [] l

theorem dedupFirst_mem {α : Type} [DecidableEq α] (l : List α) (x : α) :
    x ∈ dedupFirst l ↔ x ∈ l := by
  rw [dedupFirst, dedupFirstAux_mem]
  simp

theorem pollPages_first (ob : Obs) :
    ∀ (l₁ : List Nat) (m : List (Nat × String)) (p : Nat) (l₂ : List Nat) (s : String),
      (∀ q ∈ l₁, ob.extract q = none) → ob.extract p = some s →
      (pollPages ob m (l₁ ++ p :: l₂)).2 = some (s, ob.url p)
  | [], m, p, l₂, s, _, h2 => by simp [pollPages, h2]
  | q :: l₁, m, p, l₂, s, h1, h2 => by
    have hq : ob.extract q = none := h1 q (List.mem_cons_self q l₁)
    rw [List.cons_append, pollPages, hq]
    exact pollPages_first ob l₁ _ p l₂ s (fun r hr => h1 r (List.mem_cons_of_mem q hr)) h2

theorem waitForScanid_first (ob : Obs) (rest : List Obs) (m : List (Nat × String))
    (l₁ : List Nat) (p : Nat) (l₂ : List Nat) (s : String)
    (h1 : ∀ q ∈ l₁, ob.extract q = none) (h2 : ob.extract p = some s) :
    waitForScanid (l₁ ++ p :: l₂) m (ob :: rest) = .found s (ob.url p) := by
  have hp := pollPages_first ob l₁ m p l₂ s h1 h2
  rw [waitForScanid]
  rcases hpoll : pollPages ob m (l₁ ++ p :: l₂) with ⟨m1, o⟩
  rw [hpoll] at hp
  simp only at hp
  rw [hp]

theorem pollPages_none (ob : Obs) :
    ∀ (pages : List Nat) (m : List (Nat × String)), (∀ p ∈ pages, ob.extract p = none) →
      (pollPages ob m pages).2 = none
  | [], _, _ => rfl
  | p :: rest, m, h => by
    have hp : ob.extract p = none := h p (List.mem_cons_self p rest)
    rw [pollPages, hp]
    exact pollPages_none ob rest _ (fun q hq => h q (List.mem_cons_of_mem p hq))

theorem waitForScanid_timeout (pages : List Nat) :
    ∀ (ticks : List Obs) (m : List (Nat × String)),
      (∀ ob ∈ ticks, ∀ p ∈ pages, ob.extract p = none) →
      waitForScanid pages m ticks = .timedOut (timeoutMsg (finalUrls pages m ticks))
  | [], m, _ => rfl
  | ob :: rest, m, h => by
    have h2 := pollPages_none ob pages m (h ob (List.mem_cons_self ob rest))
    rw [waitForScanid]
    rcases hpoll : pollPages ob m pages with ⟨m1, o⟩
    rw [hpoll] at h2
    simp only at h2
    subst h2
    rw [finalUrls, hpoll]
    exact waitForScanid_timeout pages rest m1 (fun ob2 hob2 => h ob2 (List.mem_cons_of_mem ob hob2))

theorem lookupUrl_cons (a : Nat) (b : String) (m : List (Nat × String)) (p : Nat) :
    lookupUrl ((a, b) :: m) p = if a == p then some b else lookupUrl m p := by
  by_cases h : a = p
  · rw [lookupUrl, List.find?_cons_of_pos _ (by simpa using h), if_pos (by simpa using h)]
  · rw [lookupUrl, List.find?_cons_of_neg _ (by simpa using h), if_neg (by simpa using h),
      lookupUrl]

theorem lookupUrl_map_update (p : Nat) (u : String) :
    ∀ m : List (Nat × String), m.any (fun q => q.1 == p) = true →
      lookupUrl (m.map (fun q => if q.1 == p then (p, u) else q)) p = some u
  | [], h => by simp at h
  | (a, b) :: rest, h => by
    by_cases ha : a = p
    · subst ha
      simp [lookupUrl_cons]
    · have hrest : rest.any (fun q => q.1 == p) = true := by
        simpa [List.any_cons, ha] using h
      simp [lookupUrl_cons, ha]
      simpa using lookupUrl_map_update p u rest hrest

theorem lookupUrl_append_single (m : List (Nat × String)) (p : Nat) (u : String)
    (h : m.find? (fun q => q.1 == p) = none) :
    lookupUrl (m ++ [(p, u)]) p = some u := by
  rw [lookupUrl, List.find?_append, h, Option.none_or]
  simp

theorem lookupUrl_update_self (m : List (Nat × String)) (p : Nat) (u : String) :
    lookupUrl (updateUrl m p u) p = some u := by
  rw [updateUrl]
  by_cases hany : m.any (fun q => q.1 == p) = true
  · rw [if_pos hany]
    exact lookupUrl_map_update p u m hany
  · rw [if_neg hany]
    refine lookupUrl_append_single m p u ?_
    rw [List.find?_eq_none]
    intro x hx hbx
    exact hany (List.any_eq_true.mpr ⟨x, hx, hbx⟩)

theorem lookupUrl_map_ne (qk p : Nat) (u : String) (h : qk ≠ p) :
    ∀ m : List (Nat × String),
      lookupUrl (m.map (fun r => if r.1 == qk then (qk, u) else r)) p = lookupUrl m p
  | [] => rfl
  | (a, b) :: rest => by
    have ih := lookupUrl_map_ne qk p u h rest
    by_cases ha : a = qk
    · subst ha
      simp [lookupUrl_cons, h]
      simpa using ih
    · have hb : ((a, b) :: rest).map (fun r => if r.1 == qk then (qk, u) else r) =
          (a, b) :: rest.map (fun r => if r.1 == qk then (qk, u) else r) := by
        simp [ha]
      rw [hb, lookupUrl_cons, lookupUrl_cons]
      by_cases hap : a = p
      · rw [if_pos (by simpa using hap), if_pos (by simpa using hap)]
      · rw [if_neg (by simpa using hap), if_neg (by simpa using hap)]
        simpa using ih

theorem lookupUrl_update_ne (m : List (Nat × String)) (qk p : Nat) (u : String)
    (h : qk ≠ p) : lookupUrl (updateUrl m qk u) p = lookupUrl m p := by
  rw [updateUrl]
  by_cases hany : m.any (fun r => r.1 == qk) = true
  · rw [if_pos hany]
    exact lookupUrl_map_ne qk p u h m
  · rw [if_neg hany, lookupUrl, List.find?_append, lookupUrl]
    have h1 : List.find? (fun r => r.1 == p) [(qk, u)] = none := by
      simp [h]
    rw [h1]
    cases List.find? (fun r => r.1 == p) m <;> rfl

theorem pollPages_lookup_notmem (ob : Obs) :
    ∀ (pages : List Nat) (m : List (Nat × String)) (p : Nat),
      (∀ q ∈ pages, ob.extract q = none) → p ∉ pages →
      lookupUrl ((pollPages ob m pages).1) p = lookupUrl m p
  | [], _, _, _, _ => rfl
  | q :: rest, m, p, hno, hp => by
    have hq : ob.extract q = none := hno q (List.mem_cons_self q rest)
    rw [pollPages, hq]
    have hqp : q ≠ p := fun hqq => hp (hqq ▸ List.mem_cons_self q rest)
    rw [pollPages_lookup_notmem ob rest _ p
      (fun r hr => hno r (List.mem_cons_of_mem q hr)) (fun hr => hp (List.mem_cons_of_mem q hr))]
    exact lookupUrl_update_ne m q p (ob.url q) hqp

theorem pollPages_lookup_mem (ob : Obs) :
    ∀ (pages : List Nat) (m : List (Nat × String)) (p : Nat),
      (∀ q ∈ pages, ob.extract q = none) → p ∈ pages → pages.Nodup →
      lookupUrl ((pollPages ob m pages).1) p = some (ob.url p)
  | [], _, p, _, hp, _ => absurd hp (List.not_mem_nil p)
  | q :: rest, m, p, hno, hp, hnd => by
    have hq : ob.extract q = none := hno q (List.mem_cons_self q rest)
    rw [pollPages, hq]
    rcases List.mem_cons.mp hp with rfl | hp2
    · have hpnot : p ∉ rest := (List.nodup_cons.mp hnd).1
      rw [pollPages_lookup_notmem ob rest _ p
        (fun r hr => hno r (List.mem_cons_of_mem p hr)) hpnot]
      exact lookupUrl_update_self m p (ob.url p)
    · exact pollPages_lookup_mem ob rest _ p
        (fun r hr => hno r (List.mem_cons_of_mem q hr)) hp2 (List.nodup_cons.mp hnd).2

theorem finalUrls_append (pages : List Nat) :
    ∀ (ts : List Obs) (ob : Obs) (m : List (Nat × String)),
      finalUrls pages m (ts ++ [ob]) = (pollPages ob (finalUrls pages m ts) pages).1
  | [], _, _ => rfl
  | t :: ts, ob, m => by
    rw [List.cons_append, finalUrls, finalUrls]
    exact finalUrls_append pages ts ob _

theorem discover_new_pages (orig : Nat) (before : List Nat) (ob : Obs) (rest : List Obs)
    (np : List Nat) (last : Nat) (hnp : newPagesSince ob.contextPages before = np)
    (hlast : np.getLast? = some last) :
    discover orig before (ob :: rest) =
      waitForScanid (dedupFirst (last :: orig :: np)) [] rest := by
  rw [discover, hnp, hlast]

/-! ## Cookie-bridge lemmas -/

theorem find?_eq_head?_filter {α : Type} (p : α → Bool) :
    ∀ l : List α, l.find? p = (l.filter p).head?
  | [] => rfl
  | x :: xs => by
    by_cases hx : p x
    · simp [List.find?_cons, List.filter_cons, hx]
    · simp only [List.find?_cons, List.filter_cons, hx, Bool.false_eq_true, if_false,
        cond_false]
      exact find?_eq_head?_filter p xs

theorem pyStrip_length_le (cs : List Char) : (pyStrip cs).length ≤ cs.length := by
  rw [pyStrip, List.length_reverse]
  calc ((cs.dropWhile Char.isWhitespace).reverse.dropWhile Char.isWhitespace).length
      ≤ (cs.dropWhile Char.isWhitespace).reverse.length :=
        (List.dropWhile_sublist _).length_le
    _ = (cs.dropWhile Char.isWhitespace).length := List.length_reverse _
    _ ≤ cs.length := (List.dropWhile_sublist _).length_le

theorem snippet_length_le (t : String) : (snippet t).length ≤ 500 := by
  show ((pyStrip (t.data.take 500)).map
    (fun c => if c = newlineChar then ' ' else c)).length ≤ 500
  rw [List.length_map]
  calc (pyStrip (t.data.take 500)).length
      ≤ (t.data.take 500).length := pyStrip_length_le _
    _ ≤ 500 := by
        rw [List.length_take]
        exact Nat.min_le_left _ _

theorem getCookieValue_eq_spec (cookies : List Cookie) (name : String) :
    getCookieValue cookies name = bridgeCookieSpec cookies name := by
  simp only [getCookieValue, bridgeCookieSpec, find?_eq_head?_filter, List.head?_append]
  cases (cookies.filter (fun c => c.name == name && c.value != "")).head? with
  | none =>
    simp only [Option.none_or]
    cases (cookies.filter (fun c => pyLower c.name == pyLower name && c.value != "")).head? <;>
      rfl
  | some c => rfl

/-! ## Claims -/

/-- C1 counterexample: the TOC-append rule claimed by the spec is false on
the code.  Line 280 appends the chapter's TOC entry unconditionally, right
after the page-manifest call and before any page of the chapter is placed.
With a single chapter whose manifest response is malformed (`data.JGPS`
missing) the walk places zero pages, yet the TOC contains that chapter's
entry, whose `startPage` (= 1) points past every placed page. -/
theorem c1_counterexample :
    (walk (fun _ => Json.obj []) (fun _ => (1000, 1400))
        [Json.obj [("EMID", Json.str "E1"), ("EFRAGMENTNAME", Json.str "Ch1")]]).pages = [] ∧
    (walk (fun _ => Json.obj []) (fun _ => (1000, 1400))
        [Json.obj [("EMID", Json.str "E1"), ("EFRAGMENTNAME", Json.str "Ch1")]]).toc =
      [⟨1, "Ch1", 1⟩] :=
  ⟨rfl, rfl⟩

/-- C1 (amended): for every chapter walked (a list entry that is a dict
with truthy `EMID`/`emid`) exactly one level-1 TOC entry is appended,
titled with the chapter name and carrying `startPage` = 1 + number of
pages placed before the chapter; the entry is appended whether or not the
chapter contributes pages, so every `startPage` lies between 1 and
(placed pages) + 1, the last value occurring exactly when a zero-page
chapter has no later page after it. -/
theorem c1_toc_rule (f : String → Json) (dims : String → Nat × Nat) (data : List Json) :
    (walk f dims data).toc = tocOf f 0 data ∧
    (walk f dims data).toc.length = (data.filter validChapter).length ∧
    ∀ e ∈ (walk f dims data).toc,
      e.level = 1 ∧ 1 ≤ e.startPage ∧ e.startPage ≤ (walk f dims data).pages.length + 1 := by
  obtain ⟨-, htoc, -, hseq, -⟩ := walkFrom_spec f dims data initState
  have htoc0 : (walk f dims data).toc = tocOf f 0 data := by
    rw [walk, htoc]
    rfl
  have hlen : (walk f dims data).pages.length = totalCount f data := by
    have hlen2 := congrArg List.length hseq
    simpa [walk, initState] using hlen2
  refine ⟨htoc0, by rw [htoc0, tocOf_length], ?_⟩
  intro e he
  rw [htoc0] at he
  obtain ⟨hl, h1, h2⟩ := tocOf_mem f data 0 e he
  refine ⟨hl, by omega, ?_⟩
  rw [hlen]
  omega

/-- C1 witness: the amended TOC rule, instantiated at the zero-page
chapter run, for its single TOC entry. -/
theorem c1_toc_rule_witness :
    (⟨1, "Ch1", 1⟩ : TocEntry).level = 1 ∧ 1 ≤ (⟨1, "Ch1", 1⟩ : TocEntry).startPage ∧
      (⟨1, "Ch1", 1⟩ : TocEntry).startPage ≤
        (walk (fun _ => Json.obj []) (fun _ => (1000, 1400))
          [Json.obj [("EMID", Json.str "E1"), ("EFRAGMENTNAME", Json.str "Ch1")]]).pages.length
          + 1 :=
  (c1_toc_rule (fun _ => Json.obj []) (fun _ => (1000, 1400))
      [Json.obj [("EMID", Json.str "E1"), ("EFRAGMENTNAME", Json.str "Ch1")]]).2.2
    ⟨1, "Ch1", 1⟩ (by decide)

/-- C2: a chapter whose page-manifest response lacks the nested `JGPS`
list (or whose `data` is not a dict) contributes zero pages and zero
downloads, leaves `page_index` untouched, and the loop simply continues
with the remaining chapters — it is the `continue` at line 287, not an
abort. -/
theorem c2_malformed_manifest_skip (f : String → Json) (dims : String → Nat × Nat)
    (st : WalkState) (kvs : List (String × Json)) (rest : List Json)
    (hemid : truthy (emidValue kvs) = true)
    (hman : manifestImgs (f (pyStr (emidValue kvs))) = none) :
    (processChapter f dims st (Json.obj kvs)).pages = st.pages ∧
    (processChapter f dims st (Json.obj kvs)).downloads = st.downloads ∧
    (processChapter f dims st (Json.obj kvs)).pageIndex = st.pageIndex ∧
    walkFrom f dims (Json.obj kvs :: rest) st =
      walkFrom f dims rest (processChapter f dims st (Json.obj kvs)) := by
  refine ⟨?_, ?_, ?_, rfl⟩ <;> simp [processChapter, hemid, hman]

/-- C2 witness: a malformed-manifest chapter followed by another list
entry, from the empty state. -/
theorem c2_malformed_manifest_skip_witness :
    (processChapter (fun _ => Json.obj []) (fun _ => (1, 1)) initState
        (Json.obj [("EMID", Json.str "E1")])).pages = initState.pages ∧
    (processChapter (fun _ => Json.obj []) (fun _ => (1, 1)) initState
        (Json.obj [("EMID", Json.str "E1")])).downloads = initState.downloads ∧
    (processChapter (fun _ => Json.obj []) (fun _ => (1, 1)) initState
        (Json.obj [("EMID", Json.str "E1")])).pageIndex = initState.pageIndex ∧
    walkFrom (fun _ => Json.obj []) (fun _ => (1, 1))
        (Json.obj [("EMID", Json.str "E1")] :: [Json.num 5]) initState =
      walkFrom (fun _ => Json.obj []) (fun _ => (1, 1)) [Json.num 5]
        (processChapter (fun _ => Json.obj []) (fun _ => (1, 1)) initState
          (Json.obj [("EMID", Json.str "E1")])) :=
  c2_malformed_manifest_skip (fun _ => Json.obj []) (fun _ => (1, 1)) initState
    [("EMID", Json.str "E1")] [Json.num 5] rfl rfl

/-- C3: across a whole walk the sequence numbers of the placed pages are
exactly `1, 2, ..., N` in placement order — strictly increasing by 1, no
gaps, no reordering, regardless of chapter boundaries. -/
theorem c3_sequence_gapless (f : String → Json) (dims : String → Nat × Nat)
    (data : List Json) :
    (walk f dims data).pages.map (fun p => p.sequence) =
      List.range' 1 ((walk f dims data).pages.length) := by
  obtain ⟨-, -, -, hseq, -⟩ := walkFrom_spec f dims data initState
  have h1 : (walk f dims data).pages.map (fun p => p.sequence) =
      List.range' 1 (totalCount f data) := by
    simpa [walk, initState] using hseq
  have h2 : (walk f dims data).pages.length = totalCount f data := by
    have := congrArg List.length h1
    simpa using this
  rw [h1, h2]

/-- C5 counterexample: a chapter list of length 1 whose only entry is not
a dict produces zero page-manifest calls, not one — lines 265-268 skip
non-dict entries and falsy EMIDs without calling the API. -/
theorem c5_counterexample :
    ([Json.num 7] : List Json).length = 1 ∧
    (walk (fun _ => Json.obj []) (fun _ => (1, 1)) [Json.num 7]).calls.length = 0 :=
  ⟨rfl, rfl⟩

/-- C5 (amended): the walker issues exactly one page-manifest call per
chapter-list entry that is a dict with a truthy `EMID`/`emid` — in the
exact list order, with no reordering — and hence exactly N calls when all
N entries are such; other entries are skipped with no call. -/
theorem c5_calls_per_valid_chapter (f : String → Json) (dims : String → Nat × Nat)
    (data : List Json) :
    (walk f dims data).calls = (data.filter validChapter).map chapterEmid ∧
    ((∀ item ∈ data, validChapter item = true) →
      (walk f dims data).calls.length = data.length) := by
  obtain ⟨hcalls, -, -, -, -⟩ := walkFrom_spec f dims data initState
  have h1 : (walk f dims data).calls = (data.filter validChapter).map chapterEmid := by
    simpa [walk, initState, callsOf] using hcalls
  refine ⟨h1, fun hall => ?_⟩
  rw [h1, List.length_map, List.filter_eq_self.mpr hall]

/-- C5 witness: two well-formed chapter entries give two calls in order. -/
theorem c5_calls_per_valid_chapter_witness :
    (walk (fun _ => Json.obj []) (fun _ => (1, 1))
        [Json.obj [("EMID", Json.str "A")], Json.obj [("emid", Json.num 2)]]).calls =
      (([Json.obj [("EMID", Json.str "A")], Json.obj [("emid", Json.num 2)]].filter
        validChapter).map chapterEmid) ∧
    (walk (fun _ => Json.obj []) (fun _ => (1, 1))
        [Json.obj [("EMID", Json.str "A")], Json.obj [("emid", Json.num 2)]]).calls.length =
      ([Json.obj [("EMID", Json.str "A")], Json.obj [("emid", Json.num 2)]] : List Json).length :=
  ⟨(c5_calls_per_valid_chapter (fun _ => Json.obj []) (fun _ => (1, 1))
      [Json.obj [("EMID", Json.str "A")], Json.obj [("emid", Json.num 2)]]).1,
    (c5_calls_per_valid_chapter (fun _ => Json.obj []) (fun _ => (1, 1))
      [Json.obj [("EMID", Json.str "A")], Json.obj [("emid", Json.num 2)]]).2
      (by
        intro item hitem
        rcases List.mem_cons.mp hitem with rfl | h2
        · rfl
        · rcases List.mem_cons.mp h2 with rfl | h3
          · rfl
          · exact absurd h3 (List.not_mem_nil item))⟩

/-- C4 counterexample: when the chapter-list body is valid JSON whose
`data` field is absent (or not a list), the run does abort fatally, but
the line-256 message is the fixed string `chaptersDataErrMsg` and
includes no snippet of the raw response body: here the body "RAWBODY0"
has a non-empty snippet (itself) that does not occur in the message, so
the claim that all three failure cases include a body snippet is false. -/
theorem c4_counterexample :
    fetchChapters (fun _ => some (Json.obj [])) [⟨"BotuReadKernel", "tok"⟩]
        ⟨200, "RAWBODY0"⟩ = (ChaptersOutcome.fatal chaptersDataErrMsg, true) ∧
    snippet "RAWBODY0" = "RAWBODY0" ∧
    containsSub "RAWBODY0" chaptersDataErrMsg = false :=
  ⟨rfl, by decide, by decide⟩

/-- C4 (amended): the chapter-list fetch aborts the run fatally, with no
retry, in all three cases — HTTP status outside [200,300), body not
parseable as JSON, and `data` absent or not a list; the first two error
messages embed `snippet` of the raw body (its first 500 characters,
stripped, newlines replaced), which is bounded by 500 characters, while
the `data` case emits a fixed diagnostic without a body snippet. -/
theorem c4_chapter_list_fatal (parse : String → Option Json) (cookies : List Cookie)
    (resp : HttpResponse) (v : String)
    (hck : getCookieValue cookies "BotuReadKernel" = some v) :
    (resp.status < 200 ∨ 300 ≤ resp.status →
      fetchChapters parse cookies resp =
        (.fatal ("ERROR: API HTTP " ++ toString resp.status ++ ". url="
          ++ DEFAULT_CHAPTERS_API ++ " Body: " ++ snippet resp.text), true)) ∧
    (¬(resp.status < 200 ∨ 300 ≤ resp.status) → parse resp.text = none →
      fetchChapters parse cookies resp =
        (.fatal ("ERROR: API did not return JSON. url=" ++ DEFAULT_CHAPTERS_API
          ++ " Body: " ++ snippet resp.text), true)) ∧
    (∀ kvs, ¬(resp.status < 200 ∨ 300 ≤ resp.status) →
      parse resp.text = some (Json.obj kvs) →
      (∀ xs, jget kvs "data" ≠ Json.arr xs) →
      fetchChapters parse cookies resp = (.fatal chaptersDataErrMsg, true)) ∧
    (snippet resp.text).length ≤ 500 := by
  refine ⟨fun hs => ?_, fun hs hp => ?_, fun kvs hs hp hd => ?_, snippet_length_le resp.text⟩
  · have hpost : postFormJson parse cookies DEFAULT_CHAPTERS_API resp =
        (.fatal ("ERROR: API HTTP " ++ toString resp.status ++ ". url="
          ++ DEFAULT_CHAPTERS_API ++ " Body: " ++ snippet resp.text), true) := by
      rw [postFormJson, hck, if_pos hs]
    rw [fetchChapters, hpost]
  · have hpost : postFormJson parse cookies DEFAULT_CHAPTERS_API resp =
        (.fatal ("ERROR: API did not return JSON. url=" ++ DEFAULT_CHAPTERS_API
          ++ " Body: " ++ snippet resp.text), true) := by
      rw [postFormJson, hck, if_neg hs, hp]
    rw [fetchChapters, hpost]
  · have hpost : postFormJson parse cookies DEFAULT_CHAPTERS_API resp =
        (.ok (Json.obj kvs), true) := by
      rw [postFormJson, hck, if_neg hs, hp]
    simp only [fetchChapters, hpost]

/-- C4 witness: the three fatal cases, each at a concrete response. -/
theorem c4_chapter_list_fatal_witness :
    fetchChapters (fun _ => some (Json.obj [])) [⟨"BotuReadKernel", "tok"⟩]
        ⟨404, "NOTFOUND"⟩ =
      (.fatal ("ERROR: API HTTP " ++ toString (404 : Int) ++ ". url="
        ++ DEFAULT_CHAPTERS_API ++ " Body: " ++ snippet "NOTFOUND"), true) ∧
    fetchChapters (fun _ => none) [⟨"BotuReadKernel", "tok"⟩] ⟨200, "not json"⟩ =
      (.fatal ("ERROR: API did not return JSON. url=" ++ DEFAULT_CHAPTERS_API
        ++ " Body: " ++ snippet "not json"), true) ∧
    fetchChapters (fun _ => some (Json.obj [("x", Json.num 1)]))
        [⟨"BotuReadKernel", "tok"⟩] ⟨200, "B2"⟩ = (.fatal chaptersDataErrMsg, true) :=
  ⟨(c4_chapter_list_fatal (fun _ => some (Json.obj [])) [⟨"BotuReadKernel", "tok"⟩]
      ⟨404, "NOTFOUND"⟩ "tok" (by decide)).1 (by decide),
    (c4_chapter_list_fatal (fun _ => none) [⟨"BotuReadKernel", "tok"⟩]
      ⟨200, "not json"⟩ "tok" (by decide)).2.1 (by decide) rfl,
    (c4_chapter_list_fatal (fun _ => some (Json.obj [("x", Json.num 1)]))
      [⟨"BotuReadKernel", "tok"⟩] ⟨200, "B2"⟩ "tok" (by decide)).2.2.1
      [("x", Json.num 1)] (by decide) rfl
      (fun xs h => Json.noConfusion h)⟩

/-- C6: the cookie bridge behaves exactly as specified — over all cookies
visible for the target URL it takes an exact-name match first, a
case-insensitive match second, returning the first matching non-empty
value — and when it yields nothing, `_post_form_json` exits fatally with
the missing-credential message with `request.post` never issued. -/
theorem c6_cookie_bridge (cookies : List Cookie) (parse : String → Option Json)
    (apiUrl : String) (resp : HttpResponse) :
    (∀ name, getCookieValue cookies name = bridgeCookieSpec cookies name) ∧
    (getCookieValue cookies "BotuReadKernel" = none →
      postFormJson parse cookies apiUrl resp = (.fatal missingCookieMsg, false)) := by
  refine ⟨fun name => getCookieValue_eq_spec cookies name, fun hnone => ?_⟩
  rw [postFormJson, hnone]

/-- C6 witness: a session with one non-matching cookie bridges to nothing
and the API call is refused before any request is made. -/
theorem c6_cookie_bridge_witness :
    getCookieValue [⟨"Other", "v"⟩] "BotuReadKernel" =
      bridgeCookieSpec [⟨"Other", "v"⟩] "BotuReadKernel" ∧
    postFormJson (fun _ => some (Json.obj [])) [⟨"Other", "v"⟩] "u" ⟨200, "b"⟩ =
      (.fatal missingCookieMsg, false) :=
  ⟨(c6_cookie_bridge [⟨"Other", "v"⟩] (fun _ => some (Json.obj [])) "u" ⟨200, "b"⟩).1
      "BotuReadKernel",
    (c6_cookie_bridge [⟨"Other", "v"⟩] (fun _ => some (Json.obj [])) "u" ⟨200, "b"⟩).2
      (by decide)⟩

/-- C7: when new pages appear after the click, the candidate set becomes
`dict.fromkeys([new_pages[-1], page] + new_pages)` — newest new context,
then the original page, then the other new contexts, deduplicated keeping
the first (highest-priority) occurrence — and the polling stage returns
the token of the first candidate, in that order, whose extraction yields
a non-blank value. -/
theorem c7_candidate_priority :
    (∀ (orig : Nat) (before : List Nat) (ob : Obs) (rest : List Obs)
      (np : List Nat) (last : Nat),
      newPagesSince ob.contextPages before = np → np.getLast? = some last →
      discover orig before (ob :: rest) =
        waitForScanid (dedupFirst (last :: orig :: np)) [] rest) ∧
    (∀ l : List Nat, (dedupFirst l).Nodup ∧ List.Sublist (dedupFirst l) l ∧
      ∀ x, x ∈ dedupFirst l ↔ x ∈ l) ∧
    (∀ (ob : Obs) (rest : List Obs) (m : List (Nat × String)) (l₁ : List Nat)
      (p : Nat) (l₂ : List Nat) (s : String),
      (∀ q ∈ l₁, ob.extract q = none) → ob.extract p = some s →
      waitForScanid (l₁ ++ p :: l₂) m (ob :: rest) = .found s (ob.url p)) :=
  ⟨discover_new_pages,
    fun l => ⟨dedupFirst_nodup l, dedupFirst_sublist l, dedupFirst_mem l⟩,
    waitForScanid_first⟩

/-- C7 witness: two new tabs 2 and 3 appear; the candidate set is
`[3, 1, 2]` (newest, original, other), and when candidate 3 is blank and
candidate 1 has the token, the token of 1 is returned. -/
theorem c7_candidate_priority_witness :
    discover 1 [1] (⟨[1, 2, 3], fun _ => none, fun _ => "u"⟩ :: []) =
      waitForScanid (dedupFirst (3 :: 1 :: [2, 3])) [] [] ∧
    (dedupFirst [3, 1, 2, 3]).Nodup ∧
    waitForScanid ([3] ++ 1 :: [2]) []
        (⟨[1, 2, 3], fun p => if p = 1 then some "tok9" else none, fun _ => "u"⟩ :: []) =
      .found "tok9" "u" :=
  ⟨c7_candidate_priority.1 1 [1] ⟨[1, 2, 3], fun _ => none, fun _ => "u"⟩ [] [2, 3] 3 rfl rfl,
    (c7_candidate_priority.2.1 [3, 1, 2, 3]).1,
    c7_candidate_priority.2.2 ⟨[1, 2, 3], fun p => if p = 1 then some "tok9" else none,
        fun _ => "u"⟩ [] [] [3] 1 [2] "tok9"
      (by
        intro q hq
        rcases List.mem_cons.mp hq with rfl | hq2
        · rfl
        · exact absurd hq2 (List.not_mem_nil q))
      rfl⟩

/-- C8 counterexample: the timeout message does not enumerate every
distinct URL observed across the polled contexts — `last_urls` keeps only
the most recent URL per context, so when page 2 shows "urlA" on one poll
tick and "urlB" on the next, the failing run's message lists only "urlB"
even though "urlA" was observed on a polled context. -/
theorem c8_counterexample :
    discover 1 [1] [c8Obs0, c8ObsA, c8ObsB] =
      .timedOut "ERROR: scanid not found within timeout. seen_urls=[u1, urlB]" ∧
    c8ObsA.url 2 = "urlA" ∧
    containsSub "urlA" "ERROR: scanid not found within timeout. seen_urls=[u1, urlB]" =
      false :=
  ⟨rfl, rfl, by decide⟩

/-- C8 (amended): a single deadline budget (default 90000 ms) is shared
across both discovery stages — after new tabs appear, the polling stage
runs only on the budget remaining — and a token-free run fails with the
scanid-not-found message, which enumerates, sorted and deduplicated, the
distinct non-empty most recent URL of each polled context (the last-seen
URL per context, not every URL ever observed). -/
theorem c8_deadline_and_urls (pages : List Nat) (m : List (Nat × String))
    (ticks : List Obs)
    (hno : ∀ ob ∈ ticks, ∀ p ∈ pages, ob.extract p = none) :
    waitForScanid pages m ticks = .timedOut (timeoutMsg (finalUrls pages m ticks)) ∧
    (∀ (ts : List Obs) (ob : Obs) (p : Nat), ticks = ts ++ [ob] → p ∈ pages →
      pages.Nodup → lookupUrl (finalUrls pages m ticks) p = some (ob.url p)) ∧
    (∀ (orig : Nat) (before : List Nat) (ob2 : Obs) (rest : List Obs)
      (np : List Nat) (last : Nat),
      newPagesSince ob2.contextPages before = np → np.getLast? = some last →
      discover orig before (ob2 :: rest) =
        waitForScanid (dedupFirst (last :: orig :: np)) [] rest) ∧
    DEFAULT_SCAN_TIMEOUT_MS = 90000 := by
  refine ⟨waitForScanid_timeout pages ticks m hno, ?_, discover_new_pages, rfl⟩
  rintro ts ob p rfl hmem hnd
  rw [finalUrls_append]
  exact pollPages_lookup_mem ob pages (finalUrls pages m ts) p
    (hno ob (by simp)) hmem hnd

/-- C8 witness: the token-free two-tick run on candidates `[2, 1]`; the
final record for page 2 is its last-seen URL "urlB". -/
theorem c8_deadline_and_urls_witness :
    waitForScanid [2, 1] [] [c8ObsA, c8ObsB] =
      .timedOut (timeoutMsg (finalUrls [2, 1] [] [c8ObsA, c8ObsB])) ∧
    lookupUrl (finalUrls [2, 1] [] [c8ObsA, c8ObsB]) 2 = some (c8ObsB.url 2) := by
  have hno : ∀ ob ∈ [c8ObsA, c8ObsB], ∀ p ∈ [2, 1], ob.extract p = none := by
    intro ob hob p hp
    rcases List.mem_cons.mp hob with rfl | hob2
    · rfl
    · rcases List.mem_cons.mp hob2 with rfl | hob3
      · rfl
      · exact absurd hob3 (List.not_mem_nil ob)
  exact ⟨(c8_deadline_and_urls [2, 1] [] [c8ObsA, c8ObsB] hno).1,
    (c8_deadline_and_urls [2, 1] [] [c8ObsA, c8ObsB] hno).2.1 [c8ObsA] c8ObsB 2 rfl
      (by decide) (by decide)⟩

/-- C9: every page placed in the output document has point dimensions
`px * 72 / EXPORT_DPI` with the fixed constant `EXPORT_DPI = 144` — i.e.
each dimension in points is exactly half the pixel count — and in
particular 1000 x 1400 pixels yield exactly 500 x 700 points. -/
theorem c9_page_geometry (f : String → Json) (dims : String → Nat × Nat)
    (data : List Json) (p : AcquiredPage) (hp : p ∈ (walk f dims data).pages) :
    p.widthPt = p.widthPx * 72 / EXPORT_DPI ∧
    p.heightPt = p.heightPx * 72 / EXPORT_DPI ∧
    2 * p.widthPt = p.widthPx ∧ 2 * p.heightPt = p.heightPx ∧
    pagePoints 1000 = 500 ∧ pagePoints 1400 = 700 := by
  obtain ⟨-, -, -, -, hpt⟩ := walkFrom_spec f dims data initState
  have hg : goodPt p := hpt (by intro q hq; exact absurd hq (List.not_mem_nil q)) p hp
  obtain ⟨hw, hh⟩ := hg
  have h2 : ∀ px : Nat, 2 * pagePoints px = px := by
    intro px
    rw [pagePoints, EXPORT_DPI]
    have h144 : (144 : ℚ) ≠ 0 := by norm_num
    field_simp
    ring
  refine ⟨hw, hh, ?_, ?_, by norm_num [pagePoints, EXPORT_DPI], by norm_num [pagePoints, EXPORT_DPI]⟩
  · rw [hw]
    exact h2 p.widthPx
  · rw [hh]
    exact h2 p.heightPx

/-- C9 witness: the single acquired page of a one-page walk with a
1000 x 1400 pixel image. -/
theorem c9_page_geometry_witness :
    (⟨"Ch1", "/x/p1.jpg", 1, 1000, 1400, pagePoints 1000, pagePoints 1400⟩ :
        AcquiredPage).widthPt =
      (⟨"Ch1", "/x/p1.jpg", 1, 1000, 1400, pagePoints 1000, pagePoints 1400⟩ :
        AcquiredPage).widthPx * 72 / EXPORT_DPI ∧
    (⟨"Ch1", "/x/p1.jpg", 1, 1000, 1400, pagePoints 1000, pagePoints 1400⟩ :
        AcquiredPage).heightPt =
      (⟨"Ch1", "/x/p1.jpg", 1, 1000, 1400, pagePoints 1000, pagePoints 1400⟩ :
        AcquiredPage).heightPx * 72 / EXPORT_DPI ∧
    2 * (⟨"Ch1", "/x/p1.jpg", 1, 1000, 1400, pagePoints 1000, pagePoints 1400⟩ :
        AcquiredPage).widthPt =
      (⟨"Ch1", "/x/p1.jpg", 1, 1000, 1400, pagePoints 1000, pagePoints 1400⟩ :
        AcquiredPage).widthPx ∧
    2 * (⟨"Ch1", "/x/p1.jpg", 1, 1000, 1400, pagePoints 1000, pagePoints 1400⟩ :
        AcquiredPage).heightPt =
      (⟨"Ch1", "/x/p1.jpg", 1, 1000, 1400, pagePoints 1000, pagePoints 1400⟩ :
        AcquiredPage).heightPx ∧
    pagePoints 1000 = 500 ∧ pagePoints 1400 = 700 :=
  c9_page_geometry
    (fun _ => Json.obj [("data", Json.obj [("JGPS",
      Json.arr [Json.obj [("hfsKey", Json.str "/x/p1.jpg")]])])])
    (fun _ => (1000, 1400))
    [Json.obj [("EMID", Json.str "A"), ("EFRAGMENTNAME", Json.str "Ch1")]]
    ⟨"Ch1", "/x/p1.jpg", 1, 1000, 1400, pagePoints 1000, pagePoints 1400⟩
    (by
      have hpages : (walk
          (fun _ => Json.obj [("data", Json.obj [("JGPS",
            Json.arr [Json.obj [("hfsKey", Json.str "/x/p1.jpg")]])])])
          (fun _ => (1000, 1400))
          [Json.obj [("EMID", Json.str "A"), ("EFRAGMENTNAME", Json.str "Ch1")]]).pages =
          [⟨"Ch1", "/x/p1.jpg", 1, 1000, 1400, pagePoints 1000, pagePoints 1400⟩] := rfl
      rw [hpages]
      exact List.mem_singleton_self _)

/-- C10: a manifest entry that is not a dict, or whose `hfsKey` is falsy
(missing or empty), is skipped silently — the state is exactly what the
remaining entries produce: no download, no placed page, no sequence
number consumed — and the surviving pages still number gaplessly from
`page_index + 1`. -/
theorem c10_invalid_entry_skipped (dims : String → Nat × Nat) (ch : String)
    (img : Json) (rest : List Json) (st : WalkState) (h : validImg img = false) :
    processImgs dims ch (img :: rest) st = processImgs dims ch rest st ∧
    (processImgs dims ch (img :: rest) st).pages.map (fun p => p.sequence) =
      st.pages.map (fun p => p.sequence) ++
        List.range' (st.pageIndex + 1) (countImgs rest) := by
  have hskip : processImgs dims ch (img :: rest) st = processImgs dims ch rest st := by
    simp [processImgs, h]
  refine ⟨hskip, ?_⟩
  rw [hskip, processImgs_seq]

/-- C10 witness: a non-dict entry followed by a downloadable one: the
skip is exact and the good page is numbered 1. -/
theorem c10_invalid_entry_skipped_witness :
    processImgs (fun _ => (8, 8)) "ch"
        (Json.num 3 :: [Json.obj [("hfsKey", Json.str "/x/p1.jpg")]]) initState =
      processImgs (fun _ => (8, 8)) "ch" [Json.obj [("hfsKey", Json.str "/x/p1.jpg")]]
        initState ∧
    (processImgs (fun _ => (8, 8)) "ch"
        (Json.num 3 :: [Json.obj [("hfsKey", Json.str "/x/p1.jpg")]]) initState).pages.map
      (fun p => p.sequence) =
      initState.pages.map (fun p => p.sequence) ++
        List.range' (initState.pageIndex + 1)
          (countImgs [Json.obj [("hfsKey", Json.str "/x/p1.jpg")]]) :=
  c10_invalid_entry_skipped (fun _ => (8, 8)) "ch" (Json.num 3)
    [Json.obj [("hfsKey", Json.str "/x/p1.jpg")]] initState rfl

end EReserve
